import Mathlib

/-!
Verification of the invoice/expense/procurement scripts of this repository
against their natural-language specification.

Texts are shallowly embedded as `List Char` (Lean `Char` is a Unicode scalar,
so the Chinese characters of the sources are single list elements).  The
Python regular-expression patterns that the scripts apply are hand-compiled
into matching functions over `List Char`; each such function carries a doc
comment quoting the pattern it embeds.  Python's `\d` is modelled as the
ASCII digits `0-9` and `\s` as the ASCII whitespace characters, which are
the only characters the patterns and the analysed inputs use.

Python floats only ever hold exact decimal fractions in these scripts
(regex-matched decimal literals and products with small integers), so they
are modelled exactly by `PyDec`, a pair of a natural numerator and a decimal
exponent; `round(x, 2)` is modelled by round-half-to-even on the value
scaled to cents, matching Python's rounding of these (exactly representable)
values.
-/

/-- ASCII whitespace, modelling Python's `\s` and `str.strip()` character
set for the inputs at hand. -/
def pyIsSpace (c : Char) : Bool :=
  c = ' ' || c = '\t' || c = '\n' || c = '\r' || c = '\x0b' || c = '\x0c'

/-- Python `str.strip()`: remove leading and trailing whitespace. -/
def pyStrip (s : List Char) : List Char :=
  ((s.dropWhile pyIsSpace).reverse.dropWhile pyIsSpace).reverse

/-- Characters matched by the class `[\d,]`. -/
def isDigitComma (c : Char) : Bool := c.isDigit || c = ','

/-- The numeric value of a list of ASCII digit characters (most significant
first), as `int()`/`float()` read them. -/
def natOfDigits (ds : List Char) : Nat :=
  ds.foldl (fun a c => 10 * a + (c.toNat - 48)) 0

/-- The ASCII digit character for a value below ten. -/
def digitChar : Nat → Char
  | 0 => '0' | 1 => '1' | 2 => '2' | 3 => '3' | 4 => '4'
  | 5 => '5' | 6 => '6' | 7 => '7' | 8 => '8' | _ => '9'

/-- Decimal rendering of a natural number (fuel-based so that it reduces in
the kernel); `natToCharsAux (n+1) n` renders `n`. -/
def natToCharsAux : Nat → Nat → List Char
  | 0, _ => []
  | fuel + 1, n =>
    if n < 10 then [digitChar n]
    else natToCharsAux fuel (n / 10) ++ [digitChar (n % 10)]

/-- Decimal rendering of a natural number. -/
def natToChars (n : Nat) : List Char := natToCharsAux (n + 1) n

/-- An exact decimal `num / 10 ^ exp`, the model of the (non-negative)
Python float values occurring in these scripts. -/
structure PyDec where
  num : Nat
  exp : Nat
deriving DecidableEq, Repr

/-- The rational value of a `PyDec`; used in theorem statements. -/
def PyDec.toQ (d : PyDec) : ℚ := (d.num : ℚ) / 10 ^ d.exp

/-- `d < n` for a natural bound `n`, as the float comparison would decide it. -/
def PyDec.ltNat (d : PyDec) (n : Nat) : Prop := d.num < n * 10 ^ d.exp

instance (d : PyDec) (n : Nat) : Decidable (d.ltNat n) := by
  unfold PyDec.ltNat; infer_instance

/-- `n < d` for a natural bound `n`. -/
def PyDec.gtNat (d : PyDec) (n : Nat) : Prop := n * 10 ^ d.exp < d.num

instance (d : PyDec) (n : Nat) : Decidable (d.gtNat n) := by
  unfold PyDec.gtNat; infer_instance

/-- Multiplication by an integer quantity (`unit_price * quantity`). -/
def PyDec.mulNat (d : PyDec) (k : Nat) : PyDec := ⟨d.num * k, d.exp⟩

/-- The value of `d` scaled to cents and rounded half-to-even, modelling
`round(x, 2)` / `f"{x:.2f}"` on the exactly-represented values at hand. -/
def PyDec.cents (d : PyDec) : Nat :=
  let p := 10 ^ d.exp
  let x := d.num * 100
  let q := x / p
  let r := x % p
  if 2 * r < p then q else if p < 2 * r then q + 1
  else if q % 2 = 0 then q else q + 1

/-- The string `f"{x:.2f}"` produces for the value `c / 100`: integer part,
a dot, and a two-digit fractional part. -/
def formatCents (c : Nat) : List Char :=
  natToChars (c / 100) ++ '.' :: [digitChar (c % 100 / 10), digitChar (c % 100 % 10)]

/-- `f"{x:.2f}"` for a `PyDec` value. -/
def format2f (d : PyDec) : List Char := formatCents d.cents

/-- Python `float()` restricted to the decimal literals reachable here:
`digits`, `digits.`, `.digits` or `digits.digits` (no sign, no exponent,
which never occur in the matched groups).  Anything else raises
`ValueError`, modelled as `none`. -/
def pyFloat (s : List Char) : Option PyDec :=
  let ip := s.takeWhile Char.isDigit
  match s.drop ip.length with
  | [] => if ip.isEmpty then none else some ⟨natOfDigits ip, 0⟩
  | '.' :: fp =>
    if fp.all Char.isDigit && !(ip.isEmpty && fp.isEmpty) then
      some ⟨natOfDigits ip * 10 ^ fp.length + natOfDigits fp, fp.length⟩
    else none
  | _ => none

/-- `round(python_float, 2)`: the value rounded to cents. -/
def pyRound2 (d : PyDec) : PyDec := ⟨d.cents, 2⟩

/-! ### Generic leftmost scanning, modelling `re.search` and `re.findall`

A pattern is embedded as a `tryAt` function that attempts a match anchored
at the start of the remaining text and returns the captured group(s)
together with the text following the match.  `re.search` tries every start
position from the left; `re.findall` collects non-overlapping matches,
resuming after each match (all embedded patterns consume at least one
character, so the fuel `s.length` suffices). -/

/-- Leftmost match: try the anchored matcher at each position from the left
and return the first capture. -/
def reSearch (tryAt : List Char → Option (α × List Char)) : List Char → Option α
  | [] => none
  | c :: cs =>
    match tryAt (c :: cs) with
    | some (g, _) => some g
    | none => reSearch tryAt cs

/-- `re.findall` with explicit fuel. -/
def reFindAllAux (tryAt : List Char → Option (α × List Char)) :
    Nat → List Char → List α
  | 0, _ => []
  | _, [] => []
  | fuel + 1, c :: cs =>
    match tryAt (c :: cs) with
    | some (g, rest) => g :: reFindAllAux tryAt fuel rest
    | none => reFindAllAux tryAt fuel cs

/-- All non-overlapping matches, leftmost first. -/
def reFindAll (tryAt : List Char → Option (α × List Char)) (s : List Char) :
    List α := reFindAllAux tryAt s.length s

/-- First-match-wins over an ordered list of search functions: the loop
`for pattern in patterns: m = re.search(pattern, text); if m: ...; break`. -/
def firstSearch (pats : List (List Char → Option α)) (text : List Char) :
    Option α :=
  match pats with
  | [] => none
  | p :: ps =>
    match p text with
    | some g => some g
    | none => firstSearch ps text

/-! ### The four invoice-number patterns

Shared by `expense_request.InvoiceProcessor.extract_invoice_info`,
`invoice_number_checker.InvoiceNumberExtractor` and
`check_reimbursed_invoices.ReimbursedInvoiceChecker`:

  1. `发票号码[：:](\d{8,})`
  2. `发票代码[：:]?(\d{10,12})`
  3. `No[.:]?\s*(\d{8,})`
  4. `(\d{20,})`

In each hand-compiled matcher the greedy quantifiers are resolved
deterministically: shrinking a greedy digit run can only expose another
digit, never the distinct literal that must follow, so no backtracking
alternative can succeed. -/

/-- Pattern `发票号码[：:](\d{8,})`, anchored at the start of `s`. -/
def tryInv1 (s : List Char) : Option (List Char × List Char) :=
  if ("发票号码".toList).isPrefixOf s then
    match s.drop 4 with
    | c :: s1 =>
      if c = '：' || c = ':' then
        let run := s1.takeWhile Char.isDigit
        if 8 ≤ run.length then some (run, s1.drop run.length) else none
      else none
    | [] => none
  else none

/-- Pattern `发票代码[：:]?(\d{10,12})`, anchored at the start of `s`.
The optional colon is consumed when present (skipping it would put the
colon where a digit is required).  The greedy `{10,12}` takes at most
twelve digits of the run. -/
def tryInv2 (s : List Char) : Option (List Char × List Char) :=
  if ("发票代码".toList).isPrefixOf s then
    let s1 := s.drop 4
    let s2 := match s1 with
      | c :: r => if c = '：' || c = ':' then r else s1
      | [] => s1
    let run := s2.takeWhile Char.isDigit
    if 10 ≤ run.length then
      some (run.take 12, run.drop 12 ++ s2.drop run.length)
    else none
  else none

/-- Pattern `No[.:]?\s*(\d{8,})`, anchored at the start of `s`. -/
def tryInv3 (s : List Char) : Option (List Char × List Char) :=
  if ("No".toList).isPrefixOf s then
    let s1 := s.drop 2
    let s2 := match s1 with
      | c :: r => if c = '.' || c = ':' then r else s1
      | [] => s1
    let s3 := s2.drop ((s2.takeWhile pyIsSpace).length)
    let run := s3.takeWhile Char.isDigit
    if 8 ≤ run.length then some (run, s3.drop run.length) else none
  else none

/-- Pattern `(\d{20,})`, anchored at the start of `s`. -/
def tryInv4 (s : List Char) : Option (List Char × List Char) :=
  let run := s.takeWhile Char.isDigit
  if 20 ≤ run.length then some (run, s.drop run.length) else none

/-- The ordered pattern list `invoice_number_patterns`, as search
functions. -/
def invoiceSearchers : List (List Char → Option (List Char)) :=
  [reSearch tryInv1, reSearch tryInv2, reSearch tryInv3, reSearch tryInv4]

/-- `InvoiceNumberExtractor.extract_invoice_numbers_from_text` (identical in
`check_reimbursed_invoices.py`): `re.findall` of every pattern in order,
keeping every match of length at least eight. -/
def extract_invoice_numbers_from_text (text : List Char) : List (List Char) :=
  [tryInv1, tryInv2, tryInv3, tryInv4].foldl
    (fun numbers t => numbers ++ (reFindAll t text).filter (fun m => 8 ≤ m.length))
    []

/-! ### `expense_request.py`: `InvoiceProcessor.extract_invoice_info`

The amount patterns (applied with `re.findall(..., re.MULTILINE | re.IGNORECASE)`;
neither flag changes anything except that `$` inside the lookahead of
pattern 4 also matches before a newline):

  1. `小写[）)]?[：:：\s]*[￥¥]?([\d,]+\.\d{2})`
  2. `\(小写\)[：:：\s]*[￥¥]?([\d,]+\.\d{2})`
  3. `价税合计[（(]大写[）)]?[：:：\s]*[^\d]*?[￥¥]?([\d,]+\.\d{2})`
  4. `[￥¥]([\d,]+\.\d{2})(?=\s*$|\s*元|\n)`
  5. `合计[：:：\s]*[￥¥]?([\d,]+\.\d{2})`
  6. `应付[：:：\s]*[￥¥]?([\d,]+\.\d{2})`
-/

/-- Match a literal and return the rest of the text. -/
def litThen (lit s : List Char) : Option (List Char) :=
  if lit.isPrefixOf s then some (s.drop lit.length) else none

/-- Consume one character satisfying `p` when present (the greedy `X?` in a
context where skipping a present `X` cannot lead to a match, which holds at
every use below because the following required character class never
contains `X`). -/
def optChar (p : Char → Bool) (s : List Char) : List Char :=
  match s with
  | c :: r => if p c then r else s
  | [] => s

/-- The character class `[：:：\s]` (fullwidth colon, ASCII colon,
whitespace). -/
def isColonWs (c : Char) : Bool := c = '：' || c = ':' || pyIsSpace c

/-- The character class `[￥¥]` (fullwidth and halfwidth yen). -/
def isYen (c : Char) : Bool := c = '￥' || c = '¥'

/-- The group `([\d,]+\.\d{2})`, anchored: a maximal non-empty run of
digits/commas, a dot, and two digits.  Greedy `[\d,]+` is deterministic:
shrinking the run exposes a digit or comma where the dot is required. -/
def readAmountGroup (s : List Char) : Option (List Char × List Char) :=
  let run := s.takeWhile isDigitComma
  if run.isEmpty then none
  else
    match s.drop run.length with
    | '.' :: d1 :: d2 :: rest =>
      if d1.isDigit && d2.isDigit then some (run ++ '.' :: [d1, d2], rest)
      else none
    | _ => none

/-- The common tail `[：:：\s]*[￥¥]?([\d,]+\.\d{2})` of patterns 1, 2, 5
and 6 (greedy class run and optional yen are deterministic: neither a
class character nor a yen sign can start the digit/comma group). -/
def amountTail (s : List Char) : Option (List Char × List Char) :=
  readAmountGroup (optChar isYen (s.drop ((s.takeWhile isColonWs).length)))

/-- Pattern `小写[）)]?[：:：\s]*[￥¥]?([\d,]+\.\d{2})`, anchored. -/
def tryAmt1 (s : List Char) : Option (List Char × List Char) :=
  match litThen ("小写".toList) s with
  | some s1 => amountTail (optChar (fun d => d = '）' || d = ')') s1)
  | none => none

/-- Pattern `\(小写\)[：:：\s]*[￥¥]?([\d,]+\.\d{2})`, anchored. -/
def tryAmt2 (s : List Char) : Option (List Char × List Char) :=
  match litThen ("(小写)".toList) s with
  | some s1 => amountTail s1
  | none => none

/-- The lazy segment `[^\d]*?[￥¥]?([\d,]+\.\d{2})` of pattern 3: try the
group (with optional yen) at each position, extending the lazy run one
non-digit character at a time, exactly in Python's backtracking order. -/
def amt3Scan (s : List Char) : Option (List Char × List Char) :=
  match s with
  | [] => none
  | c :: r =>
    match readAmountGroup (optChar isYen (c :: r)) with
    | some gr => some gr
    | none => if c.isDigit then none else amt3Scan r

/-- Pattern `价税合计[（(]大写[）)]?[：:：\s]*[^\d]*?[￥¥]?([\d,]+\.\d{2})`,
anchored. -/
def tryAmt3 (s : List Char) : Option (List Char × List Char) :=
  match litThen ("价税合计".toList) s with
  | some s1 =>
    match s1 with
    | c :: s2 =>
      if c = '（' || c = '(' then
        match litThen ("大写".toList) s2 with
        | some s3 =>
          let s4 := optChar (fun d => d = '）' || d = ')') s3
          amt3Scan (s4.drop ((s4.takeWhile isColonWs).length))
        | none => none
      else none
    | [] => none
  | none => none

/-- The lookahead `(?=\s*$|\s*元|\n)` of pattern 4, under `re.MULTILINE`
(`$` matches at the end of the text or before any newline): the whitespace
run that follows either contains a newline, or reaches the end of the
text, or is followed by `元`. -/
def lookAmt4 (s : List Char) : Bool :=
  let ws := s.takeWhile pyIsSpace
  ws.contains '\n' || (s.drop ws.length).isEmpty ||
    (s.drop ws.length).head? = some '元'

/-- Pattern `[￥¥]([\d,]+\.\d{2})(?=\s*$|\s*元|\n)`, anchored. -/
def tryAmt4 (s : List Char) : Option (List Char × List Char) :=
  match s with
  | c :: r =>
    if isYen c then
      match readAmountGroup r with
      | some (g, rest) => if lookAmt4 rest then some (g, rest) else none
      | none => none
    else none
  | [] => none

/-- Pattern `合计[：:：\s]*[￥¥]?([\d,]+\.\d{2})`, anchored. -/
def tryAmt5 (s : List Char) : Option (List Char × List Char) :=
  match litThen ("合计".toList) s with
  | some s1 => amountTail s1
  | none => none

/-- Pattern `应付[：:：\s]*[￥¥]?([\d,]+\.\d{2})`, anchored. -/
def tryAmt6 (s : List Char) : Option (List Char × List Char) :=
  match litThen ("应付".toList) s with
  | some s1 => amountTail s1
  | none => none

/-- The ordered `amount_patterns` list. -/
def amountMatchers : List (List Char → Option (List Char × List Char)) :=
  [tryAmt1, tryAmt2, tryAmt3, tryAmt4, tryAmt5, tryAmt6]

/-- The amount-extraction loop of `extract_invoice_info`: for each pattern
in order, take the first `findall` match, strip commas, parse it as a
float; when the value lies strictly between 0 and 1,000,000 the formatted
`f"{amount:.2f}"` is stored and the loop breaks, otherwise (parse failure
or out-of-range value) the next pattern is tried. -/
def amountLoop : List (List Char → Option (List Char × List Char)) →
    List Char → List Char
  | [], _ => []
  | t :: ts, text =>
    match (reFindAll t text).head? with
    | none => amountLoop ts text
    | some m =>
      match pyFloat (m.filter (fun c => c ≠ ',')) with
      | none => amountLoop ts text
      | some a =>
        if 0 < a.num ∧ a.ltNat 1000000 then format2f a
        else amountLoop ts text

/-- `os.path.splitext(filename)[0]`: drop the extension after the last dot,
ignoring any leading dots. -/
def splitextBase (s : List Char) : List Char :=
  let lead := s.takeWhile (fun c => c = '.')
  let rest := s.drop lead.length
  if rest.contains '.' then
    lead ++ (rest.reverse.drop ((rest.reverse.takeWhile (fun c => c ≠ '.')).length + 1)).reverse
  else s

/-- The record `extract_invoice_info` builds (dict keys 付款明细原因,
项目负责人, 发票类型, 发票号码, 付款类型, 科目明细, 金额, and the 备注 key
that is only created later when a validation remark is appended). -/
structure ExpenseInfo where
  reason : List Char
  manager : List Char
  invoice_type : List Char
  invoice_number : List Char
  payment_type : List Char
  subject_detail : List Char
  amount : List Char
  remarks : Option (List Char)
deriving DecidableEq, Repr

/-- `InvoiceProcessor.extract_invoice_info(text, filename)`: first-match-wins
search over the four invoice-number patterns (empty string when none
matches), the amount loop above, the filename stem as the expense reason,
and the processor's fixed defaults for the remaining fields. -/
def extract_invoice_info (text filename : List Char) : ExpenseInfo :=
  ⟨splitextBase filename, "马晓健".toList, "增值税电子普通发票".toList,
   (firstSearch invoiceSearchers text).getD [], "科研费用".toList,
   "科研耗材".toList, amountLoop amountMatchers text, none⟩

/-- `InvoiceProcessor.validate_amount`: empty, non-numeric, zero (the model
has no negative floats, so `amount <= 0` is `num = 0`) and over-100,000
amounts are reported invalid with a message; otherwise the amount is
accepted. -/
def validate_amount (s : List Char) : Bool × List Char :=
  if s.isEmpty then (false, "未识别到金额".toList)
  else
    match pyFloat s with
    | none => (false, "金额格式错误".toList)
    | some a =>
      if a.num = 0 then (false, "金额不能为零或负数".toList)
      else if a.gtNat 100000 then
        (false, "金额过大(".toList ++ format2f a ++ "元)，请确认".toList)
      else (true, "金额正常".toList)

/-- The per-record validation step of `process_invoices` (lines 223-231):
when `validate_amount` rejects the amount, the message is appended to the
record's 备注 field and the record is still kept (appended to
`invoice_data`); nothing is raised. -/
def applyAmountValidation (info : ExpenseInfo) : ExpenseInfo :=
  let v := validate_amount info.amount
  if v.1 then info
  else
    ⟨info.reason, info.manager, info.invoice_type, info.invoice_number,
     info.payment_type, info.subject_detail, info.amount,
     some ((info.remarks.getD []) ++ "金额验证: ".toList ++ v.2 ++ "; ".toList)⟩

/-! ### `invoice_number_checker.py`: PDF extraction with OCR fallback

A PDF document is embedded by the outcomes of the external library calls:
`fitz.open` may raise (`pagesE`), and for each page `page.get_text()`
(`textE`) and the OCR of the page rendered at 2x scale
(`pytesseract.image_to_string`, `ocrE`) may raise or return text.  The
rendering scale itself has no observable effect in the model beyond the
per-page OCR outcome. -/

/-- One page: the direct text layer and the OCR result of the rendered
page, each possibly an exception. -/
structure PdfPage where
  textE : Except (List Char) (List Char)
  ocrE : Except (List Char) (List Char)

/-- A document: `fitz.open` either raises or yields the pages. -/
structure PdfDoc where
  pagesE : Except (List Char) (List PdfPage)

/-- The body of `extract_text_from_pdf` before its `try/except`:
`text = ""; for page in doc: text += page.get_text()`; the first failing
page aborts with its exception. -/
def concatPageTexts (acc : List Char) : List PdfPage → Except (List Char) (List Char)
  | [] => Except.ok acc
  | p :: ps =>
    match p.textE with
    | Except.error e => Except.error e
    | Except.ok t => concatPageTexts (acc ++ t) ps

/-- The un-caught computation of `extract_text_from_pdf`. -/
def extract_text_body (d : PdfDoc) : Except (List Char) (List Char) :=
  match d.pagesE with
  | Except.error e => Except.error e
  | Except.ok pages => concatPageTexts [] pages

/-- `InvoiceNumberExtractor.extract_text_from_pdf` (identical in
`expense_request.py` and `check_reimbursed_invoices.py`): any exception is
caught, logged, and turned into the empty string. -/
def extract_text_from_pdf (d : PdfDoc) : List Char :=
  match extract_text_body d with
  | Except.ok t => t
  | Except.error _ => []

/-- The body of `pdf_to_image_ocr` before its `try/except`: per-page OCR
results concatenated with a trailing newline each. -/
def concatPageOcr (acc : List Char) : List PdfPage → Except (List Char) (List Char)
  | [] => Except.ok acc
  | p :: ps =>
    match p.ocrE with
    | Except.error e => Except.error e
    | Except.ok t => concatPageOcr (acc ++ t ++ ['\n']) ps

/-- The un-caught computation of `pdf_to_image_ocr`. -/
def pdf_to_image_ocr_body (d : PdfDoc) : Except (List Char) (List Char) :=
  match d.pagesE with
  | Except.error e => Except.error e
  | Except.ok pages => concatPageOcr [] pages

/-- `InvoiceNumberExtractor.pdf_to_image_ocr` (identical in the other two
scripts): any exception is caught, logged, and turned into the empty
string. -/
def pdf_to_image_ocr (d : PdfDoc) : List Char :=
  match pdf_to_image_ocr_body d with
  | Except.ok t => t
  | Except.error _ => []

/-- `InvoiceNumberExtractor.extract_invoice_numbers_from_pdf` (identical in
`check_reimbursed_invoices.py`, and the same text-then-OCR policy inlined
in `process_invoices`): direct extraction first; when the stripped text has
fewer than 100 characters the OCR result replaces it unconditionally; the
returned flag records whether OCR was invoked (the call-count stub the
specification asks to check). -/
def extract_invoice_numbers_from_pdf (d : PdfDoc) : List (List Char) × Bool :=
  let text := extract_text_from_pdf d
  if (pyStrip text).length < 100 then
    let t2 := pdf_to_image_ocr d
    ((if (pyStrip t2).isEmpty then [] else extract_invoice_numbers_from_text t2), true)
  else
    ((if (pyStrip text).isEmpty then [] else extract_invoice_numbers_from_text text), false)

/-! ### `invoice_number_checker.py`: cache and duplicate lookup -/

/-- The extractor's mutable state: the set of seen invoice numbers
(modelled as the list of its elements) and the dict from invoice number to
the files it occurred in (modelled as an association list in insertion
order). -/
structure ExtractorState where
  invoice_number_set : List (List Char)
  invoice_to_files : List (List Char × List (List Char))
deriving DecidableEq, Repr

/-- `dict.get(key, [])` on the association-list model. -/
def dictGet (d : List (List Char × List (List Char))) (k : List Char) :
    List (List Char) :=
  match d.find? (fun p => p.1 == k) with
  | some p => p.2
  | none => []

/-- `self.base_path` of `InvoiceNumberExtractor`. -/
def basePath : List Char := "/Users/lr-2002/Documents/报销材料/".toList

/-- `self.exclude_folder` (the tbd folder). -/
def excludeFolder : List Char := "/Users/lr-2002/Documents/报销材料/tbd".toList

/-- Whether a (resolved, absolute) file path lies in the excluded tbd
folder.  Models `Path(file).resolve().is_relative_to(tbd)` with `resolve`
the identity on the already-absolute paths of the model, via the string
prefix test that the code itself uses as its pre-3.9 fallback. -/
def isInExcludeFolder (p : List Char) : Bool := excludeFolder.isPrefixOf p

/-- The pickled blob written by `save_cache`: a dict whose two keys are
each read back with `cache_data.get(key, default)`. -/
structure CacheBlob where
  invoice_number_set : Option (List (List Char))
  invoice_to_files : Option (List (List Char × List (List Char)))
deriving DecidableEq, Repr

/-- `InvoiceNumberExtractor.save_cache`: pickle both components. -/
def save_cache (st : ExtractorState) : CacheBlob :=
  ⟨some st.invoice_number_set, some st.invoice_to_files⟩

/-- `InvoiceNumberExtractor.load_cache`: a missing cache file leaves the
state unchanged, an unpickling error resets it to empty, and otherwise
each key is read with an empty default. -/
def load_cache (prev : ExtractorState)
    (file : Option (Except (List Char) CacheBlob)) : ExtractorState :=
  match file with
  | none => prev
  | some (Except.error _) => ⟨[], []⟩
  | some (Except.ok b) =>
    ⟨b.invoice_number_set.getD [], b.invoice_to_files.getD []⟩

/-- The result dict of `check_invoice_number` (keys `invoice_number`,
`exists`, `is_reimbursed`, `files`, `include_tbd`). -/
structure CheckResult where
  invoice_number : List Char
  exists_ : Bool
  is_reimbursed : Bool
  files : List (List Char)
  include_tbd : Bool
deriving DecidableEq, Repr

/-- `InvoiceNumberExtractor.check_invoice_number`: look the number up in
the cache, filter out tbd occurrences unless `include_tbd`, and report
existence/reimbursement as non-emptiness of the remaining file list. -/
def check_invoice_number (st : ExtractorState) (n : List Char)
    (include_tbd : Bool) : CheckResult :=
  let all_files := dictGet st.invoice_to_files n
  let files := if include_tbd then all_files
    else all_files.filter (fun f => !(isInExcludeFolder f))
  ⟨n, !files.isEmpty, !files.isEmpty, files, include_tbd⟩

/-! ### `check_reimbursed_invoices.py`: the move decision -/

/-- Insert-or-update on the association-list model of a Python dict. -/
def dictInsertBool (d : List (List Char × Bool)) (k : List Char) (v : Bool) :
    List (List Char × Bool) :=
  if d.any (fun p => p.1 == k) then
    d.map (fun p => if p.1 == k then (k, v) else p)
  else d ++ [(k, v)]

/-- `ReimbursedInvoiceChecker.check_invoice_numbers_reimbursed`: a dict
mapping each extracted number to the `is_reimbursed` flag of
`check_invoice_number(number, include_tbd=False)`. -/
def check_invoice_numbers_reimbursed (st : ExtractorState)
    (numbers : List (List Char)) : List (List Char × Bool) :=
  numbers.foldl
    (fun res n => dictInsertBool res n (check_invoice_number st n false).is_reimbursed)
    []

/-- The per-file decision of `move_reimbursed_invoices`: a file whose
extraction yielded no numbers is skipped (`continue`), and otherwise it is
moved to the done folder exactly when `any(reimbursed_status.values())`. -/
def moveDecision (st : ExtractorState) (numbers : List (List Char)) : Bool :=
  if numbers.isEmpty then false
  else (check_invoice_numbers_reimbursed st numbers).any (fun p => p.2)

/-! ### `caigou.py`: `ProcurementProcessor.parse_procurement_info`

The name patterns (two capture groups each):

  1. `\[([^\]]+)\]\s*([^¥\n]+?)(?:\s*¥|\n|$)`
  2. `【([^】]+)】\s*([^¥\n]+?)(?:\s*¥|\n|$)`
  3. `(\w+)\s*([^¥\n]*按键[^¥\n]*?)(?:\s*¥|\n|$)`

Backtracking alternatives of the interacting quantifiers are enumerated
explicitly in Python's priority order: an earlier quantifier varies slower
than a later one, greedy quantifiers try longer runs first, lazy ones
shorter runs first, and alternatives of `(?:...|...)` are tried left to
right. -/

/-- The lengths `m, m-1, ..., 0`: the candidate orders of a greedy star. -/
def descLens (m : Nat) : List Nat := (List.range (m + 1)).reverse

/-- The character class `[^¥\n]`. -/
def okG2 (c : Char) : Bool := c ≠ '¥' && c ≠ '\n'

/-- The consuming group `(?:\s*¥|\n|$)` closing each name pattern
(`re.search` without `re.MULTILINE`, so `$` matches at the end of the text;
the end-position before a trailing newline is already covered by the `\n`
alternative).  Inside `\s*¥` the greedy run is deterministic because `¥`
is not whitespace.  Returns the text after the consumed part. -/
def nameTailT (s : List Char) : Option (List Char) :=
  match s.drop ((s.takeWhile pyIsSpace).length) with
  | '¥' :: r => some r
  | _ =>
    match s with
    | '\n' :: r => some r
    | [] => some []
    | _ => none

/-- The lazy group `([^¥\n]+?)` followed by `(?:\s*¥|\n|$)`: grow the
capture one admissible character at a time, testing the tail after each
character. -/
def lazyG2Scan (acc : List Char) : List Char → Option (List Char × List Char)
  | [] => none
  | c :: r =>
    if okG2 c then
      match nameTailT r with
      | some rest => some (acc ++ [c], rest)
      | none => lazyG2Scan (acc ++ [c]) r
    else none

/-- `\s*([^¥\n]+?)(?:\s*¥|\n|$)` after the closing bracket: the greedy
whitespace run tries longer prefixes first, the lazy group shorter ones
first. -/
def nameAfterBracket (s2 : List Char) : Option (List Char × List Char) :=
  (descLens ((s2.takeWhile pyIsSpace).length)).findSome?
    (fun w => lazyG2Scan [] (s2.drop w))

/-- Name patterns 1 and 2, anchored: a bracketed brand
(`\[([^\]]+)\]` resp. `【([^】]+)】`, deterministic because shrinking the
greedy inner run only exposes non-bracket characters) and then the product
name. -/
def tryNameBracket (openC closeC : Char) (s : List Char) :
    Option ((List Char × List Char) × List Char) :=
  match s with
  | c :: s1 =>
    if c = openC then
      let g1 := s1.takeWhile (fun d => d ≠ closeC)
      if g1.isEmpty then none
      else
        match s1.drop g1.length with
        | c2 :: s2 =>
          if c2 = closeC then
            (nameAfterBracket s2).map (fun gr => ((g1, gr.1), gr.2))
          else none
        | [] => none
    else none
  | [] => none

/-- Python's `\w`, restricted to the character repertoire of these scripts:
ASCII alphanumerics, underscore, and CJK ideographs. -/
def isWordChar (c : Char) : Bool :=
  c.isAlphanum || c = '_' || (0x4E00 ≤ c.toNat && c.toNat ≤ 0x9FFF)

/-- Name pattern 3 `(\w+)\s*([^¥\n]*按键[^¥\n]*?)(?:\s*¥|\n|$)`, anchored:
greedy word run, greedy whitespace, greedy admissible run, the literal
按键, lazy admissible run, and the closing tail, each enumerated in
backtracking priority order. -/
def tryName3 (s : List Char) : Option ((List Char × List Char) × List Char) :=
  let m := (s.takeWhile isWordChar).length
  if m = 0 then none
  else
    ((descLens m).dropLast).findSome? (fun g1len =>
      let rest1 := s.drop g1len
      (descLens ((rest1.takeWhile pyIsSpace).length)).findSome? (fun w =>
        let rest2 := rest1.drop w
        (descLens ((rest2.takeWhile okG2).length)).findSome? (fun a =>
          match litThen ("按键".toList) (rest2.drop a) with
          | some rest4 =>
            (List.range ((rest4.takeWhile okG2).length + 1)).findSome? (fun k =>
              match nameTailT (rest4.drop k) with
              | some restT =>
                some ((s.take g1len,
                       rest2.take a ++ "按键".toList ++ rest4.take k), restT)
              | none => none)
          | none => none)))

/-- `re.sub(r'\s*¥.*$', '', name_part)` for the newline-free strings it is
applied to here (the captured name groups, which exclude both `¥` and
newlines): identity when no `¥` occurs, otherwise everything from the
whitespace run preceding the leftmost `¥` on is removed. -/
def subYenLineEnd (s : List Char) : List Char :=
  if s.contains '¥' then
    ((s.takeWhile (fun c => c ≠ '¥')).reverse.dropWhile pyIsSpace).reverse
  else s

/-- Whether `needle` occurs as a contiguous substring of `hay`. -/
def containsSeq (needle : List Char) : List Char → Bool
  | [] => needle.isEmpty
  | c :: cs => needle.isPrefixOf (c :: cs) || containsSeq needle cs

/-- A colour literal among the `spec_patterns`: `re.search` finds it iff it
occurs in the text, and with no capture group the code uses `group(0)`,
the literal itself. -/
def specLit (lit : List Char) (text : List Char) : Option (List Char) :=
  if containsSeq lit text then some lit else none

/-- The keyed spec patterns `型号[：:](\S+)` and `规格[：:](\S+)`,
anchored: the key, a colon, and a maximal non-empty non-whitespace run. -/
def trySpecKV (key : List Char) (s : List Char) :
    Option (List Char × List Char) :=
  match litThen key s with
  | some s1 =>
    match s1 with
    | c :: r =>
      if c = '：' || c = ':' then
        let run := r.takeWhile (fun d => !(pyIsSpace d))
        if run.isEmpty then none else some (run, r.drop run.length)
      else none
    | [] => none
  | none => none

/-- The ordered `spec_patterns` list, as search functions yielding what the
code stores (`group(1)` when the pattern has a group, `group(0)`
otherwise). -/
def specSearchers : List (List Char → Option (List Char)) :=
  [specLit ("红色".toList), specLit ("蓝色".toList), specLit ("绿色".toList),
   specLit ("黄色".toList), specLit ("黑色".toList), specLit ("白色".toList),
   reSearch (trySpecKV ("型号".toList)), reSearch (trySpecKV ("规格".toList))]

/-- The number token `(\d+\.?\d*)`, anchored: a maximal digit run, an
optional dot, and a maximal digit run (all deterministic: shrinking any
greedy part exposes a digit where a distinct character would be needed). -/
def numToken (s : List Char) : Option (List Char × List Char) :=
  let d1 := s.takeWhile Char.isDigit
  if d1.isEmpty then none
  else
    match s.drop d1.length with
    | '.' :: r =>
      let d2 := r.takeWhile Char.isDigit
      some (d1 ++ '.' :: d2, r.drop d2.length)
    | r => some (d1, r)

/-- Price pattern `¥(\d+\.?\d*)`, anchored. -/
def tryPrice1 (s : List Char) : Option (List Char × List Char) :=
  match s with
  | '¥' :: r => numToken r
  | _ => none

/-- Price pattern `(\d+\.?\d*)元`, anchored. -/
def tryPrice2 (s : List Char) : Option (List Char × List Char) :=
  match numToken s with
  | some (g, rest) =>
    match rest with
    | '元' :: r => some (g, r)
    | _ => none
  | none => none

/-- Price pattern `价格[：:]?\s*(\d+\.?\d*)`, anchored. -/
def tryPrice3 (s : List Char) : Option (List Char × List Char) :=
  match litThen ("价格".toList) s with
  | some s1 =>
    let s2 := optChar (fun c => c = '：' || c = ':') s1
    numToken (s2.drop ((s2.takeWhile pyIsSpace).length))
  | none => none

/-- The ordered `price_patterns` list, as search functions. -/
def priceSearchers : List (List Char → Option (List Char)) :=
  [reSearch tryPrice1, reSearch tryPrice2, reSearch tryPrice3]

/-- Quantity pattern `x(\d+)`, anchored. -/
def tryQty1 (s : List Char) : Option (List Char × List Char) :=
  match s with
  | 'x' :: r =>
    let run := r.takeWhile Char.isDigit
    if run.isEmpty then none else some (run, r.drop run.length)
  | _ => none

/-- Quantity pattern `×(\d+)`, anchored. -/
def tryQty2 (s : List Char) : Option (List Char × List Char) :=
  match s with
  | '×' :: r =>
    let run := r.takeWhile Char.isDigit
    if run.isEmpty then none else some (run, r.drop run.length)
  | _ => none

/-- Quantity pattern `数量[：:]?\s*(\d+)`, anchored. -/
def tryQty3 (s : List Char) : Option (List Char × List Char) :=
  match litThen ("数量".toList) s with
  | some s1 =>
    let s2 := optChar (fun c => c = '：' || c = ':') s1
    let s3 := s2.drop ((s2.takeWhile pyIsSpace).length)
    let run := s3.takeWhile Char.isDigit
    if run.isEmpty then none else some (run, s3.drop run.length)
  | none => none

/-- Quantity pattern `(\d+)个`, anchored. -/
def tryQty4 (s : List Char) : Option (List Char × List Char) :=
  let run := s.takeWhile Char.isDigit
  if run.isEmpty then none
  else
    match s.drop run.length with
    | '个' :: r => some (run, r)
    | _ => none

/-- The ordered `quantity_patterns` list, as search functions. -/
def qtySearchers : List (List Char → Option (List Char)) :=
  [reSearch tryQty1, reSearch tryQty2, reSearch tryQty3, reSearch tryQty4]

/-- The ordered `name_patterns` list, as search functions yielding both
capture groups (all three patterns have two groups, so the code always
takes its `len(match.groups()) >= 2` branch). -/
def nameSearchers : List (List Char → Option (List Char × List Char)) :=
  [reSearch (tryNameBracket '[' ']'), reSearch (tryNameBracket '【' '】'),
   reSearch tryName3]

/-- The hard-coded fallback product name. -/
def defaultName : List Char := "[Qhebot] 数字大按键模块按键".toList

/-- The info dict of `parse_procurement_info` (keys `name`,
`specification`, `unit_price`, `quantity`, `unit`, `total_amount`). -/
structure ProcInfo where
  name : List Char
  specification : List Char
  unit_price : PyDec
  quantity : Nat
  unit : List Char
  total_amount : PyDec
deriving DecidableEq, Repr

/-- `ProcurementProcessor.parse_procurement_info`: first-match-wins over
the name patterns with stripping/`re.sub` cleanup and a hard-coded default;
first-match-wins over the spec patterns with the name as default; over the
price patterns with `float` conversion (the matched token is always a valid
float literal, so the `getD` default is unreachable), replacing a zero
price by the default 3.8; over the quantity patterns with `int` conversion,
replacing a quantity of 1 by the default 6; and the total as the rounded
product. -/
def parse_procurement_info (text : List Char) : ProcInfo :=
  let nameOpt := firstSearch nameSearchers text
  let name0 := match nameOpt with
    | some g =>
      let np := subYenLineEnd (pyStrip g.2)
      pyStrip ('[' :: g.1 ++ ']' :: ' ' :: np)
    | none => []
  let name := if name0.isEmpty then defaultName else name0
  let spec0 := (firstSearch specSearchers text).getD []
  let spec := if spec0.isEmpty then name else spec0
  let price0 := match firstSearch priceSearchers text with
    | some g => (pyFloat g).getD ⟨0, 0⟩
    | none => ⟨0, 0⟩
  let price := if price0.num = 0 then ⟨38, 1⟩ else price0
  let qty0 := match firstSearch qtySearchers text with
    | some g => natOfDigits g
    | none => 1
  let qty := if qty0 = 1 then 6 else qty0
  ⟨name, spec, price, qty, "个".toList, pyRound2 (price.mulNat qty)⟩

/-! ### `pdf_reader.py`: `PDFAnalyzer.save_results`

The file system is embedded as a partial map from paths to file contents;
the JSON document assembled from the results dict is abstracted as the
byte string `data`.  `save_results` first writes the complete document to
`output_file + ".tmp"` and then `shutil.move`s the temporary file over the
output path. -/

/-- A file system: path to contents, `none` when the file does not exist. -/
def FileSys : Type := List Char → Option (List Char)

/-- Create, overwrite or (with `none`) remove one file. -/
def fsSet (fs : FileSys) (p : List Char) (c : Option (List Char)) : FileSys :=
  fun q => if q = p then c else fs q

/-- The temporary path `output_file + ".tmp"`. -/
def tmpPathOf (out : List Char) : List Char := out ++ ".tmp".toList

/-- The state after the first step of `save_results`: the complete JSON
document written to the temporary path. -/
def save_results_tmpWritten (fs : FileSys) (out data : List Char) : FileSys :=
  fsSet fs (tmpPathOf out) (some data)

/-- `PDFAnalyzer.save_results`: write the document to the temporary path,
then rename it over the output path (the rename removes the temporary
file and installs its contents at the output path). -/
def save_results (fs : FileSys) (out data : List Char) : FileSys :=
  let fs1 := save_results_tmpWritten fs out data
  fsSet (fsSet fs1 (tmpPathOf out) none) out (some data)

/-! ### Shared lemmas -/

/-- Members of a `takeWhile` satisfy the predicate. -/
theorem mem_takeWhile_sat (p : Char → Bool) :
    ∀ (l : List Char) (c : Char), c ∈ l.takeWhile p → p c = true := by
  intro l
  induction l with
  | nil => intro c h; simp [List.takeWhile] at h
  | cons x xs ih =>
    intro c h
    by_cases hx : p x = true
    · rw [List.takeWhile_cons, if_pos hx] at h
      rcases List.mem_cons.1 h with h1 | h1
      · rw [h1]; exact hx
      · exact ih c h1
    · rw [List.takeWhile_cons, if_neg hx] at h
      simp at h

/-- `takeWhile` over a list that starts with an all-satisfying block and
then a failing element returns exactly the block. -/
theorem takeWhile_block (p : Char → Bool) :
    ∀ (xs : List Char) (y : Char) (ys : List Char),
      (∀ x ∈ xs, p x = true) → p y = false →
      (xs ++ y :: ys).takeWhile p = xs := by
  intro xs
  induction xs with
  | nil => intro y ys _ hy; simp [List.takeWhile_cons, hy]
  | cons x xs ih =>
    intro y ys hall hy
    have hx : p x = true := hall x (List.mem_cons_self x xs)
    simp only [List.cons_append, List.takeWhile_cons, hx, if_pos]
    rw [ih y ys (fun z hz => hall z (List.mem_cons_of_mem x hz)) hy]

/-! ### C4: cache round-trip -/

/-- C4: saving the extractor's cache with `save_cache` and loading it back
with `load_cache` yields a state on which `check_invoice_number` returns
the same result (same `exists`/`is_reimbursed` flags and file list) for
every query number and either `include_tbd` mode. -/
theorem cache_roundtrip_preserves_check (st : ExtractorState) (n : List Char)
    (inc : Bool) :
    check_invoice_number (load_cache st (some (Except.ok (save_cache st)))) n inc
      = check_invoice_number st n inc := rfl

/-! ### C9: atomic JSON save -/

/-- The output path is never its own temporary path. -/
theorem out_ne_tmpPath (out : List Char) : out ≠ tmpPathOf out := by
  intro h
  have h1 : out.length = (tmpPathOf out).length := by rw [← h]
  have h2 : (tmpPathOf out).length = out.length + 4 := by
    have h3 : (".tmp".toList).length = 4 := by decide
    simp [tmpPathOf, h3]
  omega

/-- C9: `save_results` is atomic.  Any write to the temporary path (partial
or complete) leaves the output file unchanged; in particular the state
after the complete temporary write still holds the previous output
contents; and the final rename installs the complete document at the
output path and removes the temporary file. -/
theorem save_results_atomic (fs : FileSys) (out data : List Char) :
    (∀ pc : Option (List Char), fsSet fs (tmpPathOf out) pc out = fs out) ∧
    save_results_tmpWritten fs out data out = fs out ∧
    save_results fs out data out = some data ∧
    save_results fs out data (tmpPathOf out) = none := by
  have hne := out_ne_tmpPath out
  refine ⟨fun pc => ?_, ?_, ?_, ?_⟩
  · show (if out = tmpPathOf out then pc else fs out) = fs out
    rw [if_neg hne]
  · show (if out = tmpPathOf out then some data else fs out) = fs out
    rw [if_neg hne]
  · show (if out = out then some data else _) = some data
    rw [if_pos rfl]
  · show (if tmpPathOf out = out then some data
      else (fsSet (save_results_tmpWritten fs out data) (tmpPathOf out) none) (tmpPathOf out)) = none
    rw [if_neg (Ne.symm hne)]
    show (if tmpPathOf out = tmpPathOf out then none else _) = none
    rw [if_pos rfl]

/-! ### C5: extraction errors are caught -/

/-- C5: any exception raised during direct text extraction or during OCR is
caught and the corresponding extraction function returns the empty string
instead of propagating it (both functions are total, so a failing file can
never abort the calling batch loop). -/
theorem extraction_errors_caught (d : PdfDoc) (e1 e2 : List Char) :
    (extract_text_body d = Except.error e1 → extract_text_from_pdf d = []) ∧
    (pdf_to_image_ocr_body d = Except.error e2 → pdf_to_image_ocr d = []) := by
  constructor
  · intro h; unfold extract_text_from_pdf; rw [h]
  · intro h; unfold pdf_to_image_ocr; rw [h]

/-- Witness for C5 at a document whose `fitz.open` raises. -/
theorem extraction_errors_caught_witness :
    extract_text_from_pdf ⟨Except.error ("open failed".toList)⟩ = [] ∧
    pdf_to_image_ocr ⟨Except.error ("open failed".toList)⟩ = [] :=
  ⟨(extraction_errors_caught ⟨Except.error ("open failed".toList)⟩
      ("open failed".toList) ("open failed".toList)).1 rfl,
   (extraction_errors_caught ⟨Except.error ("open failed".toList)⟩
      ("open failed".toList) ("open failed".toList)).2 rfl⟩

/-! ### C7: the invoice-text scenario -/

/-- The scenario text of the specification. -/
def c7Text : List Char := "发票号码：12345678901234567890\n￥1234.56".toList

/-- C7: on the text `发票号码：12345678901234567890\n￥1234.56`,
`extract_invoice_info` returns invoice number `12345678901234567890` and
amount `1234.56` (whatever the accompanying file name). -/
theorem scenario_invoice_extraction (fname : List Char) :
    (extract_invoice_info c7Text fname).invoice_number
        = "12345678901234567890".toList ∧
    (extract_invoice_info c7Text fname).amount = "1234.56".toList :=
  ⟨by show (firstSearch invoiceSearchers c7Text).getD [] = _
      decide,
   by show amountLoop amountMatchers c7Text = _
      decide⟩

/-! ### C8: the procurement scenario -/

/-- The OCR text of the procurement scenario. -/
def c8Text : List Char := "[Qhebot] 数字大按键模块按键 ¥3.8 红色 x6".toList

/-- C8: on the OCR text `[Qhebot] 数字大按键模块按键 ¥3.8 红色 x6`,
`parse_procurement_info` returns name `[Qhebot] 数字大按键模块按键`,
specification `红色`, unit price 3.8, quantity 6, and total 22.8, the
total being the rounded product of unit price and quantity. -/
theorem scenario_procurement_parse :
    (parse_procurement_info c8Text).name = "[Qhebot] 数字大按键模块按键".toList ∧
    (parse_procurement_info c8Text).specification = "红色".toList ∧
    (parse_procurement_info c8Text).unit_price.toQ = 38 / 10 ∧
    (parse_procurement_info c8Text).quantity = 6 ∧
    (parse_procurement_info c8Text).total_amount.toQ = 228 / 10 ∧
    (parse_procurement_info c8Text).total_amount =
      pyRound2 ((parse_procurement_info c8Text).unit_price.mulNat
        (parse_procurement_info c8Text).quantity) := by
  have hp : (parse_procurement_info c8Text).unit_price = ⟨38, 1⟩ := by decide
  have ht : (parse_procurement_info c8Text).total_amount = ⟨2280, 2⟩ := by decide
  refine ⟨by decide, by decide, ?_, by decide, ?_, by decide⟩
  · rw [hp]; unfold PyDec.toQ; norm_num
  · rw [ht]; unfold PyDec.toQ; norm_num

/-! ### C2: the OCR-fallback threshold (corrected) -/

/-- A document whose direct text layer is 100 whitespace characters. -/
def c2BlankDoc : PdfDoc :=
  ⟨Except.ok [⟨Except.ok (List.replicate 100 ' '), Except.ok ("ocr".toList)⟩]⟩

/-- Counterexample to C2 as stated: this document's directly extracted
text has length 100 (not shorter than 100 characters), yet OCR is
invoked, because the code compares the length of the *stripped* text
against the threshold. -/
theorem ocr_threshold_counterexample :
    (extract_text_from_pdf c2BlankDoc).length = 100 ∧
    (extract_invoice_numbers_from_pdf c2BlankDoc).2 = true := by decide

/-- C2 (amended): extraction attempts the direct text layer first, and OCR
is invoked if and only if the *whitespace-stripped* direct text is shorter
than 100 characters; when OCR is invoked its result unconditionally
replaces the direct result (the returned numbers are computed from the
OCR text alone). -/
theorem ocr_invoked_iff_stripped_short (d : PdfDoc) :
    ((extract_invoice_numbers_from_pdf d).2 = true ↔
      (pyStrip (extract_text_from_pdf d)).length < 100) ∧
    ((extract_invoice_numbers_from_pdf d).2 = true →
      (extract_invoice_numbers_from_pdf d).1 =
        (if (pyStrip (pdf_to_image_ocr d)).isEmpty then []
         else extract_invoice_numbers_from_text (pdf_to_image_ocr d))) := by
  by_cases h : (pyStrip (extract_text_from_pdf d)).length < 100 <;>
    simp [extract_invoice_numbers_from_pdf, h]

/-- A document with a short direct text layer and an OCR layer holding an
invoice number. -/
def c2ShortDoc : PdfDoc :=
  ⟨Except.ok [⟨Except.ok ("short".toList), Except.ok ("发票号码:12345678".toList)⟩]⟩

/-- Witness for C2 (amended) at a concrete short-text document. -/
theorem ocr_invoked_iff_stripped_short_witness :
    (extract_invoice_numbers_from_pdf c2ShortDoc).1 =
      (if (pyStrip (pdf_to_image_ocr c2ShortDoc)).isEmpty then []
       else extract_invoice_numbers_from_text (pdf_to_image_ocr c2ShortDoc)) :=
  (ocr_invoked_iff_stripped_short c2ShortDoc).2 (by decide)

/-! ### C1: first-match-wins (corrected) -/

/-- A text on which pattern 1 matches and pattern 4 also matches a
different substring. -/
def c1CexText : List Char := "发票号码:12345678 11111111111111111111".toList

/-- Counterexample to C1 as stated: on `c1CexText` the first pattern's
captured group is `12345678`, but the list-returning extractor does not
short-circuit: it also returns the different substring matched by the
later pattern `(\d{20,})`. -/
theorem list_extractor_keeps_later_patterns :
    reSearch tryInv1 c1CexText = some ("12345678".toList) ∧
    extract_invoice_numbers_from_text c1CexText =
      ["12345678".toList, "11111111111111111111".toList] ∧
    extract_invoice_numbers_from_text c1CexText ≠ ["12345678".toList] := by decide

/-- C1 (amended): `extract_invoice_info` applies the ordered pattern list
first-match-wins — whenever pattern 1 (`发票号码[：:](\d{8,})`) matches, the
returned invoice number is exactly its captured group, short-circuiting
the later patterns — while the list-returning extractor
`extract_invoice_numbers_from_text` accumulates the matches of *all four*
patterns in order instead of short-circuiting, as on `c1CexText`. -/
theorem first_pattern_short_circuits :
    (∀ text fname g, reSearch tryInv1 text = some g →
      (extract_invoice_info text fname).invoice_number = g) ∧
    extract_invoice_numbers_from_text c1CexText =
      ["12345678".toList, "11111111111111111111".toList] := by
  constructor
  · intro text fname g h
    show (firstSearch invoiceSearchers text).getD [] = g
    simp [invoiceSearchers, firstSearch, h]
  · decide

/-- A text whose first pattern matches while a later pattern would match
a different substring. -/
def c1WitText : List Char := "发票号码：98765432 发票代码:1234567890".toList

/-- Witness for C1 (amended): the first pattern's group is returned even
though pattern 2 also matches a different substring. -/
theorem first_pattern_short_circuits_witness :
    (extract_invoice_info c1WitText ("a.pdf".toList)).invoice_number
      = "98765432".toList :=
  first_pattern_short_circuits.1 c1WitText ("a.pdf".toList)
    ("98765432".toList) (by decide)

/-! ### C10: sentinel-valued defaults in procurement parsing -/

/-- C10: when no price pattern matches, the unit price is the default 3.8;
when the first matching quantity pattern captures the value 1 (for example
an explicit `x1`), the quantity is replaced by the default 6 and the total
becomes `round(unit_price * 6, 2)`; consequently a quantity of 1 is never
returned. -/
theorem procurement_defaults (text : List Char) :
    (firstSearch priceSearchers text = none →
      (parse_procurement_info text).unit_price = ⟨38, 1⟩) ∧
    ((firstSearch qtySearchers text).map natOfDigits = some 1 →
      (parse_procurement_info text).quantity = 6 ∧
      (parse_procurement_info text).total_amount =
        pyRound2 ((parse_procurement_info text).unit_price.mulNat 6)) ∧
    (parse_procurement_info text).quantity ≠ 1 := by
  refine ⟨?_, ?_, ?_⟩
  · intro h
    simp [parse_procurement_info, h]
  · intro h
    obtain ⟨g, hg, hng⟩ := Option.map_eq_some'.1 h
    constructor
    · simp [parse_procurement_info, hg, hng]
    · simp [parse_procurement_info, hg, hng]
  · have key : ∀ q0 : Nat, (if q0 = 1 then 6 else q0) ≠ 1 := by
      intro q0
      by_cases h : q0 = 1 <;> simp [h]
    simp only [parse_procurement_info]
    exact key _

/-- Witness for C10 at the text `x1`: no price pattern matches and the
quantity pattern captures 1, so the defaults 3.8 and 6 are returned with
total `round(3.8 * 6, 2)`. -/
theorem procurement_defaults_witness :
    (parse_procurement_info ("x1".toList)).unit_price = ⟨38, 1⟩ ∧
    (parse_procurement_info ("x1".toList)).quantity = 6 ∧
    (parse_procurement_info ("x1".toList)).total_amount =
      pyRound2 ((parse_procurement_info ("x1".toList)).unit_price.mulNat 6) :=
  ⟨(procurement_defaults ("x1".toList)).1 (by decide),
   ((procurement_defaults ("x1".toList)).2.1 (by decide)).1,
   ((procurement_defaults ("x1".toList)).2.1 (by decide)).2⟩

/-! ### C3: the any-match-suffices move decision -/

/-- The value stored in the reimbursement dict for a key is determined by
the key, so inserting preserves the invariant that every entry's value is
the flag of its key. -/
theorem dictInsertBool_inv (f : List Char → Bool)
    (acc : List (List Char × Bool)) (k : List Char)
    (hinv : ∀ p ∈ acc, p.2 = f p.1) :
    ∀ p ∈ dictInsertBool acc k (f k), p.2 = f p.1 := by
  intro p hp
  unfold dictInsertBool at hp
  by_cases hk : acc.any (fun q => q.1 == k) = true
  · rw [if_pos hk] at hp
    obtain ⟨q, hq, hqe⟩ := List.mem_map.1 hp
    by_cases hq1 : (q.1 == k) = true
    · rw [if_pos hq1] at hqe
      have : p = (k, f k) := hqe.symm
      rw [this]
    · rw [if_neg hq1] at hqe
      rw [← hqe]; exact hinv q hq
  · rw [if_neg hk] at hp
    rcases List.mem_append.1 hp with h1 | h1
    · exact hinv p h1
    · have : p = (k, f k) := by simpa using h1
      rw [this]

/-- Rewriting every entry whose key is `k` to `(k, f k)` is the identity on
a dict whose values are already determined by `f`. -/
theorem map_update_id (f : List Char → Bool) (k : List Char) :
    ∀ (l : List (List Char × Bool)), (∀ p ∈ l, p.2 = f p.1) →
      l.map (fun p => if p.1 == k then (k, f k) else p) = l := by
  intro l
  induction l with
  | nil => intro _; rfl
  | cons q qs ih =>
    intro hl
    obtain ⟨a, b⟩ := q
    have hb : b = f a := hl (a, b) (List.mem_cons_self _ _)
    have htail := ih (fun p hp => hl p (List.mem_cons_of_mem _ hp))
    simp only [List.map_cons, htail, List.cons.injEq]
    refine ⟨?_, trivial⟩
    by_cases hq : (a == k) = true
    · have hak : a = k := eq_of_beq hq
      simp only [hq, if_pos]
      rw [hb, hak]
    · simp only [hq]
      rw [if_neg (by simp [hq])]

/-- When the key is already present in an `f`-consistent dict, or-ing its
flag into `any` of the values changes nothing. -/
theorem any_or_flag_of_present (f : List Char → Bool) (k : List Char)
    (acc : List (List Char × Bool)) (hinv : ∀ p ∈ acc, p.2 = f p.1)
    (hk : acc.any (fun q => q.1 == k) = true) :
    (acc.any (fun p => p.2) || f k) = acc.any (fun p => p.2) := by
  by_cases hfk : f k = true
  · obtain ⟨q, hq, hq1⟩ := List.any_eq_true.1 hk
    have hq2 : q.2 = true := by rw [hinv q hq, eq_of_beq hq1, hfk]
    have hany : acc.any (fun p => p.2) = true := List.any_eq_true.2 ⟨q, hq, hq2⟩
    rw [hany, hfk]
    rfl
  · have : f k = false := by simpa using hfk
    rw [this, Bool.or_false]

/-- Inserting the flag of a key leaves `any` of the values equal to the old
`any` or-ed with the inserted flag. -/
theorem dictInsertBool_any (f : List Char → Bool)
    (acc : List (List Char × Bool)) (k : List Char)
    (hinv : ∀ p ∈ acc, p.2 = f p.1) :
    (dictInsertBool acc k (f k)).any (fun p => p.2)
      = (acc.any (fun p => p.2) || f k) := by
  unfold dictInsertBool
  by_cases hk : acc.any (fun q => q.1 == k) = true
  · rw [if_pos hk, map_update_id f k acc hinv,
      any_or_flag_of_present f k acc hinv hk]
  · rw [if_neg hk, List.any_append]
    simp [List.any_cons]

/-- `any` of the values of the reimbursement dict built by the fold equals
`any` of the per-number flags. -/
theorem dictFold_any (f : List Char → Bool) :
    ∀ (ns : List (List Char)) (acc : List (List Char × Bool)),
      (∀ p ∈ acc, p.2 = f p.1) →
      ((ns.foldl (fun res n => dictInsertBool res n (f n)) acc).any (fun p => p.2)
        = (acc.any (fun p => p.2) || ns.any f)) := by
  intro ns
  induction ns with
  | nil => intro acc _; simp
  | cons n ns ih =>
    intro acc hinv
    simp only [List.foldl_cons, List.any_cons]
    rw [ih (dictInsertBool acc n (f n)) (dictInsertBool_inv f acc n hinv),
      dictInsertBool_any f acc n hinv, Bool.or_assoc]

/-- C3: a tbd file is classified as reimbursed (and therefore moved to the
done folder) if and only if at least one of its extracted invoice numbers
has a non-tbd occurrence recorded in the cache; it is not required that
all of them do. -/
theorem move_decision_any_match (st : ExtractorState)
    (numbers : List (List Char)) :
    moveDecision st numbers = true ↔
      ∃ n ∈ numbers,
        (dictGet st.invoice_to_files n).filter
          (fun f => !(isInExcludeFolder f)) ≠ [] := by
  unfold moveDecision check_invoice_numbers_reimbursed
  cases numbers with
  | nil => simp
  | cons m ms =>
    rw [if_neg (by simp)]
    rw [dictFold_any (fun n => (check_invoice_number st n false).is_reimbursed)
      (m :: ms) [] (by simp)]
    simp only [List.any_nil, Bool.false_or, List.any_eq_true]
    constructor
    · rintro ⟨n, hn, hr⟩
      refine ⟨n, hn, ?_⟩
      have : !((dictGet st.invoice_to_files n).filter
          (fun f => !(isInExcludeFolder f))).isEmpty = true := by
        simpa [check_invoice_number] using hr
      intro he
      rw [he] at this
      simp at this
    · rintro ⟨n, hn, hne⟩
      refine ⟨n, hn, ?_⟩
      show (check_invoice_number st n false).is_reimbursed = true
      simp only [check_invoice_number, Bool.if_false_left]
      simpa [List.isEmpty_iff] using hne

/-! ### C6: amount bounds, formatting and validation -/

/-- `digitChar` always yields an ASCII digit. -/
theorem digitChar_isDigit (n : Nat) : (digitChar n).isDigit = true := by
  rcases n with _|_|_|_|_|_|_|_|_|n <;> rfl

/-- Every character of a rendered natural number is a digit. -/
theorem natToCharsAux_digits :
    ∀ (fuel n : Nat), ∀ c ∈ natToCharsAux fuel n, c.isDigit = true := by
  intro fuel
  induction fuel with
  | zero => intro n c h; simp [natToCharsAux] at h
  | succ f ih =>
    intro n c h
    unfold natToCharsAux at h
    by_cases h10 : n < 10
    · rw [if_pos h10] at h
      simp at h
      rw [h]; exact digitChar_isDigit n
    · rw [if_neg h10] at h
      rcases List.mem_append.1 h with h1 | h1
      · exact ih (n / 10) c h1
      · simp at h1
        rw [h1]; exact digitChar_isDigit _

/-- Every character of `natToChars n` is a digit. -/
theorem natToChars_digits (n : Nat) : ∀ c ∈ natToChars n, c.isDigit = true :=
  natToCharsAux_digits (n + 1) n

/-- The value of a digit character below ten. -/
theorem digitChar_val (n : Nat) (h : n < 10) : (digitChar n).toNat - 48 = n := by
  interval_cases n <;> rfl

/-- Reading one more digit multiplies by ten and adds its value. -/
theorem natOfDigits_append (xs : List Char) (d : Char) :
    natOfDigits (xs ++ [d]) = 10 * natOfDigits xs + (d.toNat - 48) := by
  unfold natOfDigits
  rw [List.foldl_append]
  rfl

/-- Rendering and re-reading a natural number is the identity. -/
theorem natOfDigits_natToCharsAux :
    ∀ (fuel n : Nat), n < fuel → natOfDigits (natToCharsAux fuel n) = n := by
  intro fuel
  induction fuel with
  | zero => intro n h; omega
  | succ f ih =>
    intro n h
    unfold natToCharsAux
    by_cases h10 : n < 10
    · rw [if_pos h10]
      have hv : natOfDigits [digitChar n] = (digitChar n).toNat - 48 := by
        simp [natOfDigits]
      rw [hv]
      exact digitChar_val n h10
    · rw [if_neg h10]
      rw [natOfDigits_append]
      have hdiv : n / 10 < f := by
        have h1 : n / 10 < n := Nat.div_lt_self (by omega) (by omega)
        omega
      rw [ih (n / 10) hdiv, digitChar_val (n % 10) (Nat.mod_lt n (by omega))]
      omega

/-- Rendering and re-reading a natural number is the identity. -/
theorem natOfDigits_natToChars (n : Nat) : natOfDigits (natToChars n) = n :=
  natOfDigits_natToCharsAux (n + 1) n (Nat.lt_succ_self n)

/-- `float()` on a string of digits, a dot, and two digits. -/
theorem pyFloat_digits_dot_two (ds : List Char) (d1 d2 : Char)
    (hds : ∀ c ∈ ds, c.isDigit = true)
    (h1 : d1.isDigit = true) (h2 : d2.isDigit = true) :
    pyFloat (ds ++ '.' :: [d1, d2])
      = some ⟨natOfDigits ds * 100 + natOfDigits [d1, d2], 2⟩ := by
  have htake : (ds ++ '.' :: [d1, d2]).takeWhile Char.isDigit = ds :=
    takeWhile_block Char.isDigit ds '.' [d1, d2] hds (by decide)
  simp only [pyFloat, htake, List.drop_left]
  simp [h1, h2]

/-- The shape of every capture of the amount group `([\d,]+\.\d{2})`. -/
def AmtShape (g : List Char) : Prop :=
  ∃ run d1 d2, g = run ++ '.' :: [d1, d2] ∧ run ≠ [] ∧
    (∀ c ∈ run, isDigitComma c = true) ∧ d1.isDigit = true ∧ d2.isDigit = true

/-- Captures of `readAmountGroup` have the amount-group shape. -/
theorem readAmountGroup_shape (s g r : List Char)
    (h : readAmountGroup s = some (g, r)) : AmtShape g := by
  unfold readAmountGroup at h
  by_cases he : (s.takeWhile isDigitComma).isEmpty = true
  · simp [he] at h
  · simp only [he, Bool.false_eq_true, if_false] at h
    split at h
    · next d1 d2 rest heq =>
      split at h
      · next hdd =>
        have hg : s.takeWhile isDigitComma ++ '.' :: [d1, d2] = g ∧ rest = r := by
          have := Option.some.inj h
          exact ⟨congrArg Prod.fst this, congrArg Prod.snd this⟩
        rw [Bool.and_eq_true] at hdd
        refine ⟨s.takeWhile isDigitComma, d1, d2, hg.1.symm, ?_, ?_, hdd.1, hdd.2⟩
        · intro hc
          rw [hc] at he
          simp at he
        · exact fun c hc => mem_takeWhile_sat isDigitComma s c hc
      · cases h
    · cases h

/-- Captures of the common tail have the amount-group shape. -/
theorem amountTail_shape (s g r : List Char)
    (h : amountTail s = some (g, r)) : AmtShape g :=
  readAmountGroup_shape _ g r h

/-- Captures of pattern 1 have the amount-group shape. -/
theorem tryAmt1_shape (s g r : List Char)
    (h : tryAmt1 s = some (g, r)) : AmtShape g := by
  unfold tryAmt1 at h
  split at h
  · exact amountTail_shape _ g r h
  · cases h

/-- Captures of pattern 2 have the amount-group shape. -/
theorem tryAmt2_shape (s g r : List Char)
    (h : tryAmt2 s = some (g, r)) : AmtShape g := by
  unfold tryAmt2 at h
  split at h
  · exact amountTail_shape _ g r h
  · cases h

/-- Captures found by the lazy scan of pattern 3 have the amount-group
shape. -/
theorem amt3Scan_shape :
    ∀ (s g r : List Char), amt3Scan s = some (g, r) → AmtShape g := by
  intro s
  induction s with
  | nil => intro g r h; simp [amt3Scan] at h
  | cons c cs ih =>
    intro g r h
    unfold amt3Scan at h
    split at h
    · next gr heq =>
      rw [Option.some.inj h] at heq
      exact readAmountGroup_shape _ g r heq
    · split at h
      · cases h
      · exact ih g r h

/-- Captures of pattern 3 have the amount-group shape. -/
theorem tryAmt3_shape (s g r : List Char)
    (h : tryAmt3 s = some (g, r)) : AmtShape g := by
  unfold tryAmt3 at h
  split at h
  · next s1 heq =>
    split at h
    · next c s2 =>
      split at h
      · split at h
        · next s3 heq3 => exact amt3Scan_shape _ g r h
        · cases h
      · cases h
    · cases h
  · cases h

/-- Captures of pattern 4 have the amount-group shape. -/
theorem tryAmt4_shape (s g r : List Char)
    (h : tryAmt4 s = some (g, r)) : AmtShape g := by
  unfold tryAmt4 at h
  split at h
  · next c cr =>
    split at h
    · split at h
      · next g2 rest heq =>
        split at h
        · have hg : g2 = g := congrArg Prod.fst (Option.some.inj h)
          rw [hg] at heq
          exact readAmountGroup_shape _ g rest heq
        · cases h
      · cases h
    · cases h
  · cases h

/-- Captures of pattern 5 have the amount-group shape. -/
theorem tryAmt5_shape (s g r : List Char)
    (h : tryAmt5 s = some (g, r)) : AmtShape g := by
  unfold tryAmt5 at h
  split at h
  · exact amountTail_shape _ g r h
  · cases h

/-- Captures of pattern 6 have the amount-group shape. -/
theorem tryAmt6_shape (s g r : List Char)
    (h : tryAmt6 s = some (g, r)) : AmtShape g := by
  unfold tryAmt6 at h
  split at h
  · exact amountTail_shape _ g r h
  · cases h

/-- Every pattern in the `amount_patterns` list only captures
amount-group-shaped strings. -/
theorem amountMatchers_shape :
    ∀ t ∈ amountMatchers, ∀ s g r, t s = some (g, r) → AmtShape g := by
  intro t ht
  simp only [amountMatchers, List.mem_cons, List.not_mem_nil, or_false] at ht
  rcases ht with h | h | h | h | h | h <;> rw [h]
  · exact tryAmt1_shape
  · exact tryAmt2_shape
  · exact tryAmt3_shape
  · exact tryAmt4_shape
  · exact tryAmt5_shape
  · exact tryAmt6_shape

/-- A property of all captures of a matcher holds for every element of its
`findall` list. -/
theorem reFindAllAux_forall {α : Type} (P : α → Prop)
    (t : List Char → Option (α × List Char))
    (ht : ∀ s g r, t s = some (g, r) → P g) :
    ∀ (fuel : Nat) (s : List Char), ∀ g ∈ reFindAllAux t fuel s, P g := by
  intro fuel
  induction fuel with
  | zero => intro s g h; simp [reFindAllAux] at h
  | succ f ih =>
    intro s g h
    cases s with
    | nil => simp [reFindAllAux] at h
    | cons c cs =>
      unfold reFindAllAux at h
      split at h
      · next g1 rest heq =>
        rcases List.mem_cons.1 h with h1 | h1
        · rw [h1]; exact ht _ _ _ heq
        · exact ih rest g h1
      · exact ih cs g h

/-- The head of a list is a member. -/
theorem mem_of_head_eq {α : Type} (l : List α) (a : α)
    (h : l.head? = some a) : a ∈ l := by
  cases l with
  | nil => cases h
  | cons x xs =>
    have : x = a := Option.some.inj h
    rw [← this]
    exact List.mem_cons_self _ _

/-- Stripping commas from an amount-shaped capture keeps the dot and the
two fractional digits in place. -/
theorem filter_comma_append (run : List Char) (d1 d2 : Char)
    (h1 : d1.isDigit = true) (h2 : d2.isDigit = true) :
    (run ++ '.' :: [d1, d2]).filter (fun c => c ≠ ',')
      = run.filter (fun c => c ≠ ',') ++ '.' :: [d1, d2] := by
  have hd1 : d1 ≠ ',' := by
    intro hc; rw [hc] at h1; exact absurd h1 (by decide)
  have hd2 : d2 ≠ ',' := by
    intro hc; rw [hc] at h2; exact absurd h2 (by decide)
  rw [List.filter_append]
  congr 1
  simp [List.filter_cons, hd1, hd2]

/-- Stripping commas from a digit/comma run leaves only digits. -/
theorem filter_comma_digits (run : List Char)
    (hall : ∀ c ∈ run, isDigitComma c = true) :
    ∀ c ∈ run.filter (fun c => c ≠ ','), c.isDigit = true := by
  intro c hc
  rw [List.mem_filter] at hc
  have h1 := hall c hc.1
  have h2 : c ≠ ',' := by simpa using hc.2
  unfold isDigitComma at h1
  rw [Bool.or_eq_true] at h1
  rcases h1 with h | h
  · exact h
  · exact absurd (of_decide_eq_true h) h2

/-- Rounding an exact cent value to cents is the identity. -/
theorem cents_exp_two (c : Nat) : PyDec.cents ⟨c, 2⟩ = c := by
  have h1 : c * 100 % 10 ^ 2 = 0 := Nat.mul_mod_left c 100
  have h2 : c * 100 / 10 ^ 2 = c := Nat.mul_div_cancel c (by norm_num)
  simp [PyDec.cents, h1, h2]

/-- Formatting an exact cent value renders it unchanged. -/
theorem format2f_exp_two (c : Nat) : format2f ⟨c, 2⟩ = formatCents c := by
  unfold format2f
  rw [cents_exp_two]

/-- The amount strings produced by formatting have exactly two decimal
places: an integer part free of dots, a dot, and two digits. -/
def hasTwoDecimalPlaces (s : List Char) : Prop :=
  ∃ a b1 b2, s = a ++ '.' :: [b1, b2] ∧ (∀ ch ∈ a, ch ≠ '.') ∧
    b1.isDigit = true ∧ b2.isDigit = true

/-- `formatCents` always has exactly two decimal places. -/
theorem formatCents_twoDecimals (c : Nat) :
    hasTwoDecimalPlaces (formatCents c) := by
  refine ⟨natToChars (c / 100), digitChar (c % 100 / 10),
    digitChar (c % 100 % 10), rfl, ?_, digitChar_isDigit _, digitChar_isDigit _⟩
  intro ch hch hc
  have := natToChars_digits (c / 100) ch hch
  rw [hc] at this
  exact absurd this (by decide)

/-- Parsing a formatted cent value back with `float()` recovers it
exactly. -/
theorem pyFloat_formatCents (c : Nat) : pyFloat (formatCents c) = some ⟨c, 2⟩ := by
  unfold formatCents
  rw [pyFloat_digits_dot_two (natToChars (c / 100)) _ _ (natToChars_digits _)
    (digitChar_isDigit _) (digitChar_isDigit _)]
  have hd : natOfDigits [digitChar (c % 100 / 10), digitChar (c % 100 % 10)]
      = 10 * (c % 100 / 10) + c % 100 % 10 := by
    have hv : natOfDigits [digitChar (c % 100 / 10), digitChar (c % 100 % 10)]
        = 10 * ((digitChar (c % 100 / 10)).toNat - 48)
          + ((digitChar (c % 100 % 10)).toNat - 48) := by
      simp [natOfDigits]
    rw [hv, digitChar_val _ (by omega), digitChar_val _ (by omega)]
  rw [natOfDigits_natToChars, hd]
  have : c / 100 * 100 + (10 * (c % 100 / 10) + c % 100 % 10) = c := by omega
  rw [this]

/-- `validate_amount` on a formatted amount above 100,000 yuan reports it
invalid with the over-limit message. -/
theorem validate_amount_over (c : Nat) (hbig : 10000000 < c) :
    validate_amount (formatCents c)
      = (false, "金额过大(".toList ++ formatCents c ++ "元)，请确认".toList) := by
  have hne : (formatCents c).isEmpty = false := by
    unfold formatCents
    cases natToChars (c / 100) <;> rfl
  unfold validate_amount
  rw [hne]
  simp only [Bool.false_eq_true, if_false, pyFloat_formatCents]
  rw [if_neg (show ¬(⟨c, 2⟩ : PyDec).num = 0 by show ¬c = 0; omega)]
  rw [if_pos (by show 100000 * 10 ^ 2 < c; omega)]
  rw [format2f_exp_two]

/-- Whenever the amount loop produces a non-empty string, it is a formatted
cent value strictly between 0 and 100,000,000 cents. -/
theorem amountLoop_shape :
    ∀ (ms : List (List Char → Option (List Char × List Char))) (text : List Char),
      (∀ t ∈ ms, ∀ s g r, t s = some (g, r) → AmtShape g) →
      amountLoop ms text ≠ [] →
      ∃ c : Nat, 0 < c ∧ c < 100000000 ∧ amountLoop ms text = formatCents c := by
  intro ms
  induction ms with
  | nil => intro text _ hne; simp [amountLoop] at hne
  | cons t ts ih =>
    intro text hshape hne
    have hts : ∀ u ∈ ts, ∀ s g r, u s = some (g, r) → AmtShape g :=
      fun u hu => hshape u (List.mem_cons_of_mem _ hu)
    have hthead := hshape t (List.mem_cons_self _ _)
    rcases hh : (reFindAll t text).head? with _ | m
    · have hstep : amountLoop (t :: ts) text = amountLoop ts text := by
        simp [amountLoop, hh]
      rw [hstep] at hne ⊢
      exact ih text hts hne
    · rcases hf : pyFloat (m.filter (fun c => c ≠ ',')) with _ | a
      · simp only [ne_eq, decide_not] at hf
        have hstep : amountLoop (t :: ts) text = amountLoop ts text := by
          simp [amountLoop, hh, hf]
        rw [hstep] at hne ⊢
        exact ih text hts hne
      · simp only [ne_eq, decide_not] at hf
        by_cases hcond : 0 < a.num ∧ a.ltNat 1000000
        · have hstep : amountLoop (t :: ts) text = format2f a := by
            simp [amountLoop, hh, hf, hcond]
          have hmem : m ∈ reFindAll t text := mem_of_head_eq _ _ hh
          have hsh : AmtShape m :=
            reFindAllAux_forall AmtShape t hthead text.length text m hmem
          obtain ⟨run, d1, d2, hm, _, hallrun, h1, h2⟩ := hsh
          have hfilter : m.filter (fun c => c ≠ ',')
              = run.filter (fun c => c ≠ ',') ++ '.' :: [d1, d2] := by
            rw [hm]; exact filter_comma_append run d1 d2 h1 h2
          have hpf : pyFloat (m.filter (fun c => c ≠ ','))
              = some ⟨natOfDigits (run.filter (fun c => c ≠ ',')) * 100
                  + natOfDigits [d1, d2], 2⟩ := by
            rw [hfilter]
            exact pyFloat_digits_dot_two _ _ _ (filter_comma_digits run hallrun) h1 h2
          simp only [ne_eq, decide_not] at hpf
          rw [hf] at hpf
          have ha := Option.some.inj hpf
          refine ⟨a.num, hcond.1, ?_, ?_⟩
          · have hlt := hcond.2
            unfold PyDec.ltNat at hlt
            have hexp : a.exp = 2 := by rw [ha]
            rw [hexp] at hlt
            norm_num at hlt
            exact hlt
          · rw [hstep]
            have haeta : a = ⟨a.num, 2⟩ := by
              rw [ha]
            rw [haeta, format2f_exp_two]
        · have hstep : amountLoop (t :: ts) text = amountLoop ts text := by
            simp [amountLoop, hh, hf, hcond]
          rw [hstep] at hne ⊢
          exact ih text hts hne

/-- C6: whenever `extract_invoice_info` returns a non-empty amount field,
it is a formatted cent value `c` with `0 < c < 10^8`, so its numeric value
lies strictly between 0 and 1,000,000 yuan, and it carries exactly two
decimal places; and when that value exceeds 100,000 yuan,
`validate_amount` reports it invalid and the `process_invoices` validation
step flags it in the record's remarks while keeping the record and its
amount unchanged (nothing is raised). -/
theorem amount_extraction_bounds (text fname : List Char)
    (h : (extract_invoice_info text fname).amount ≠ []) :
    ∃ c : Nat, 0 < c ∧ c < 100000000 ∧
      (extract_invoice_info text fname).amount = formatCents c ∧
      (0 : ℚ) < (c : ℚ) / 100 ∧ ((c : ℚ) / 100) < 1000000 ∧
      hasTwoDecimalPlaces ((extract_invoice_info text fname).amount) ∧
      (10000000 < c →
        (validate_amount ((extract_invoice_info text fname).amount)).1 = false ∧
        (applyAmountValidation (extract_invoice_info text fname)).amount
          = (extract_invoice_info text fname).amount ∧
        (applyAmountValidation (extract_invoice_info text fname)).remarks
          = some (((extract_invoice_info text fname).remarks.getD [])
              ++ "金额验证: ".toList
              ++ (validate_amount ((extract_invoice_info text fname).amount)).2
              ++ "; ".toList)) := by
  have hne : amountLoop amountMatchers text ≠ [] := h
  obtain ⟨c, hc0, hc8, heq⟩ := amountLoop_shape amountMatchers text
    amountMatchers_shape hne
  have hAeq : (extract_invoice_info text fname).amount = formatCents c := heq
  refine ⟨c, hc0, hc8, hAeq, ?_, ?_, ?_, ?_⟩
  · apply div_pos _ (by norm_num)
    exact_mod_cast hc0
  · rw [div_lt_iff₀ (by norm_num : (0 : ℚ) < 100)]
    have : (1000000 : ℚ) * 100 = ((100000000 : Nat) : ℚ) := by norm_num
    rw [this]
    exact_mod_cast hc8
  · rw [hAeq]
    exact formatCents_twoDecimals c
  · intro hbig
    have hv := validate_amount_over c hbig
    have hv1 : (validate_amount ((extract_invoice_info text fname).amount)).1
        = false := by
      rw [hAeq, hv]
    refine ⟨hv1, ?_, ?_⟩
    · simp [applyAmountValidation, hv1]
    · simp [applyAmountValidation, hv1]

/-- The over-limit scenario text. -/
def c6Text : List Char := "￥200000.00".toList

/-- Witness for C6 at a text whose extracted amount is 200,000.00 yuan:
the existential holds with all its bounds, and the over-100,000 branch is
exercised. -/
theorem amount_extraction_bounds_witness :
    ∃ c : Nat, 0 < c ∧ c < 100000000 ∧
      (extract_invoice_info c6Text ("b.pdf".toList)).amount = formatCents c ∧
      (0 : ℚ) < (c : ℚ) / 100 ∧ ((c : ℚ) / 100) < 1000000 ∧
      hasTwoDecimalPlaces ((extract_invoice_info c6Text ("b.pdf".toList)).amount) ∧
      (10000000 < c →
        (validate_amount ((extract_invoice_info c6Text ("b.pdf".toList)).amount)).1
          = false ∧
        (applyAmountValidation (extract_invoice_info c6Text ("b.pdf".toList))).amount
          = (extract_invoice_info c6Text ("b.pdf".toList)).amount ∧
        (applyAmountValidation (extract_invoice_info c6Text ("b.pdf".toList))).remarks
          = some (((extract_invoice_info c6Text ("b.pdf".toList)).remarks.getD [])
              ++ "金额验证: ".toList
              ++ (validate_amount
                    ((extract_invoice_info c6Text ("b.pdf".toList)).amount)).2
              ++ "; ".toList)) :=
  amount_extraction_bounds c6Text ("b.pdf".toList)
    (by show amountLoop amountMatchers c6Text ≠ []; decide)
